import Mathlib

set_option maxHeartbeats 1000000

/-
  Verification development for pdp_checker.py.

  The script prepares a spreadsheet (finding the last date-like header column,
  inserting a new dated column), then for each query row drives a browser to
  scrape a result count and writes it into the new column.  External services
  (Google Sheets, Selenium, SMTP) are modelled as explicit inputs: the data the
  script reads from them is a parameter, and the cell writes, notification
  emails and browser interactions the script performs are the observable
  outputs.  Machine integers do not occur; every counter is a Nat.
-/

namespace PdpChecker

/-! ## Basic string machinery (Python `in` and regex fragments) -/

/-- Does the pattern occur at the start of the haystack (exact characters). -/
def listStartsWith : List Char → List Char → Bool
  | _, [] => true
  | [], _ :: _ => false
  | c :: cs, p :: ps => (c == p) && listStartsWith cs ps

/-- Does the pattern occur anywhere in the haystack.  Embeds Python
`pat in s` (substring containment). -/
def listContainsSub : List Char → List Char → Bool
  | [], pat => pat.isEmpty
  | c :: cs, pat => listStartsWith (c :: cs) pat || listContainsSub cs pat

/-- Python `pat in s` on strings. -/
def containsSubstr (s pat : String) : Bool := listContainsSub s.data pat.data

/-- Python `not s.strip()`: true exactly when every character of the string is
whitespace (so the stripped string is empty and falsy). -/
def isBlank (s : String) : Bool := s.data.all Char.isWhitespace

/-! ## Script configuration constants (from the source header) -/

def PDP_QUERIES_COLUMN : String := "D"

def PDP_START_ROW : Nat := 4

def PDP_END_ROW : Nat := 32

def DATE_HEADER_ROW : Nat := 2

def NO_RESULTS_TEXT : String := "No results found for"

/-! ## prepare_sheet_and_get_target_column

Source lines 131-154.  The loop
  for i, cell_value in enumerate(date_row_values):
      if re.search(r'\d', cell_value) and ('-' in cell_value or '/' in cell_value):
          last_tracking_col_index = i + 1
scans the header row; `re.search(r'\d', cell)` holds when the cell contains at
least one digit. -/

/-- One header cell counts as a tracking-date header: it contains a digit and
a dash or a slash. -/
def isDateHeader (cell : String) : Bool :=
  cell.data.any Char.isDigit && (cell.data.contains '-' || cell.data.contains '/')

/-- The enumerate loop of the source, `i` being the 0-based index of the next
cell and `acc` the accumulator `last_tracking_col_index`. -/
def lastTrackingAux : Nat → Nat → List String → Nat
  | _, acc, [] => acc
  | i, acc, cell :: rest =>
      lastTrackingAux (i + 1) (if isDateHeader cell then i + 1 else acc) rest

/-- `last_tracking_col_index` after the scan: the 1-based index of the
rightmost date-like cell, 0 if none matches. -/
def lastTrackingColIndex (row : List String) : Nat := lastTrackingAux 0 0 row

/-- The pure core of prepare_sheet_and_get_target_column: the returned
new column index, or the raised error when no date-like header exists. -/
def prepare_sheet_and_get_target_column (dateRowValues : List String) :
    Except String Nat :=
  let last := lastTrackingColIndex dateRowValues
  if last = 0 then
    Except.error "Could not find any date-like headers in row 2 to determine where to insert the new column."
  else
    Except.ok (last + 1)

/-- Effect of preparation on the header row: `insert_cols([[]], col=n)` inserts
a blank column at 1-based index n (0-based n-1), then `update_cell(2, n, today)`
stamps the date into the new cell.  Returns the new header row and the target
column; none when preparation raised (then no column is inserted at all). -/
def prepareHeaderEffect (dateRowValues : List String) (today : String) :
    Option (List String × Nat) :=
  match prepare_sheet_and_get_target_column dateRowValues with
  | Except.error _ => none
  | Except.ok n =>
      some (dateRowValues.take (n - 1) ++ today :: dateRowValues.drop (n - 1), n)

/-! ## scrape_result_count

Source lines 156-178.  The extraction regex is
  re.search(r'([\d,]+) result', stats_text, re.IGNORECASE)
which finds the leftmost maximal run of digits and commas that is immediately
followed by a space and the word "result" (letters case-insensitive), and
returns that run verbatim. -/

/-- A character matched by the regex class `[\d,]`. -/
def isCountChar (c : Char) : Bool := c.isDigit || c == ','

/-- The literal tail of the regex: a space then the word `result`. -/
def resultPattern : List Char := [' ', 'r', 'e', 's', 'u', 'l', 't']

/-- Case-insensitive prefix match of a pattern against the input, as
`re.IGNORECASE` compares letters after case folding. -/
def ciStartsWith : List Char → List Char → Bool
  | [], _ => true
  | _ :: _, [] => false
  | p :: ps, c :: cs => (Char.toLower p == Char.toLower c) && ciStartsWith ps cs

/-- Does the input start with ` result`, case-insensitively. -/
def startsWithResultCI (l : List Char) : Bool := ciStartsWith resultPattern l

/-- The search loop of `re.search(r'([\d,]+) result', text, IGNORECASE)`.
`re.search` tries every start position from the left; a match starting inside
a `[\d,]` run succeeds only if the whole run is followed by ` result`, because
backtracking the `+` would require ` result` to start with a `[\d,]` character,
which it cannot.  So the search skips from one maximal `[\d,]` run to the next
and, on success, captures group 1 as the whole maximal run.  The fuel argument
(at least the length of the remaining input) makes the recursion structural. -/
def findCountFuel : Nat → List Char → Option (List Char)
  | 0, _ => none
  | _ + 1, [] => none
  | fuel + 1, c :: rest =>
      if isCountChar c then
        if startsWithResultCI (rest.dropWhile isCountChar) then
          some (c :: rest.takeWhile isCountChar)
        else
          findCountFuel fuel (rest.dropWhile isCountChar)
      else
        findCountFuel fuel rest

/-- Group 1 of `re.search(r'([\d,]+) result', text, IGNORECASE)`, or none when
the regex does not match. -/
def findCount (l : List Char) : Option (List Char) := findCountFuel l.length l

/-- The page-state outcomes the scraping step can observe, abstracting the
Selenium waits: the Tools click and stats wait both succeed and the stats
element shows this text; one of them times out (TimeoutException or
ElementClickInterceptedException) with this page source; or any other
exception is raised. -/
inductive ScrapeOutcome where
  | stats (text : String)
  | waitTimeout (pageSource : String)
  | unexpected
deriving DecidableEq

/-- scrape_result_count.  On a visible stats text it returns group 1 of the
regex; when the regex does not match, the Python function falls off the end of
the try block and implicitly returns None, modelled as `none`.  On a wait
timeout it returns "0" when the page shows the no-results marker and
"Scrape Failed" otherwise; any other exception also yields "Scrape Failed". -/
def scrape_result_count : ScrapeOutcome → Option String
  | ScrapeOutcome.stats t =>
      (findCount t.data).map (fun r => String.mk r)
  | ScrapeOutcome.waitTimeout src =>
      if containsSubstr src NO_RESULTS_TEXT then some "0" else some "Scrape Failed"
  | ScrapeOutcome.unexpected => some "Scrape Failed"

/-- Python `str(x)` applied to the scraped value before the cell write:
a real string is unchanged and None prints as "None". -/
def pyStr : Option String → String
  | some s => s
  | none => "None"

/-! ## handle_captcha

Source lines 85-98.  The loop checks the page, returns True as soon as both
block markers are gone, otherwise sends the alert email on the first blocked
check only, sleeps, and re-checks until the timeout elapses. -/

/-- The blocked-page test of the handler: `"reCAPTCHA" in src or
"unusual traffic" in src` (the handler resumes only when both are absent). -/
def captchaBlocked (src : String) : Bool :=
  containsSubstr src "reCAPTCHA" || containsSubstr src "unusual traffic"

/-- The handler loop.  `pages k` is the page source seen at the k-th check;
`fuel` is the number of checks the configured timeout still allows;
`alertSent` is the alert_sent flag.  Returns (solved, emails sent, checks
performed). -/
def handle_captcha (pages : Nat → String) : Nat → Nat → Bool → Bool × Nat × Nat
  | 0, _, _ => (false, 0, 0)
  | fuel + 1, k, alertSent =>
      if captchaBlocked (pages k) then
        let e := if alertSent then 0 else 1
        let r := handle_captcha pages fuel (k + 1) true
        (r.1, e + r.2.1, 1 + r.2.2)
      else
        (true, 0, 1)

/-- handle_captcha as called from main: alert not yet sent, checks counted
from 0, `maxPolls` checks allowed by the timeout. -/
def handleCaptcha (pages : Nat → String) (maxPolls : Nat) : Bool × Nat × Nat :=
  handle_captcha pages maxPolls 0 false

/-! ## The main loop (source lines 180-237) -/

/-- What the browser session does for one query row, abstracting Selenium:
whether the search box is found within the bounded wait (lines 123-129),
the page source after search and settle delay (line 213), the page sources
seen by the captcha handler polls, how many captcha checks the configured
timeout allows, and what the scraping step then observes. -/
structure BrowserStep where
  searchOk : Bool
  landingSource : String
  captchaPages : Nat → String
  captchaPolls : Nat
  scrapeOutcome : ScrapeOutcome

/-- Observable outcome of one iteration of the query loop: the value written
to the cell of that row (none when the row is skipped with no write), whether
the browser was used at all, whether a search was actually submitted, and how
many notification emails the captcha handler sent. -/
structure QueryOutcome where
  cell : Option String
  usedBrowser : Bool
  searched : Bool
  emails : Nat
deriving DecidableEq

/-- The captcha detection test of main, line 213:
`"unusual traffic" in driver.page_source or "reCAPTCHA" in driver.page_source`. -/
def captchaDetectedOn (src : String) : Bool :=
  containsSubstr src "unusual traffic" || containsSubstr src "reCAPTCHA"

/-- One iteration of the for-loop of main (lines 198-225), without the final
cell write.  A blank query short-circuits to the empty result with no browser
use; a search-box failure skips the row (`continue`, no write); a detected
captcha goes through the handler, a timeout there producing the sentinel;
otherwise the scraped value (stringified, so Python None becomes "None") is
the cell value. -/
def runQuery (env : BrowserStep) (query : String) : QueryOutcome :=
  if isBlank query then
    { cell := some "", usedBrowser := false, searched := false, emails := 0 }
  else if env.searchOk = false then
    { cell := none, usedBrowser := true, searched := false, emails := 0 }
  else if captchaDetectedOn env.landingSource then
    let hc := handleCaptcha env.captchaPages env.captchaPolls
    if hc.1 then
      { cell := some (pyStr (scrape_result_count env.scrapeOutcome)),
        usedBrowser := true, searched := true, emails := hc.2.1 }
    else
      { cell := some "CAPTCHA FAILED", usedBrowser := true, searched := true,
        emails := hc.2.1 }
  else
    { cell := some (pyStr (scrape_result_count env.scrapeOutcome)),
      usedBrowser := true, searched := true, emails := 0 }

/-- Line 193: `queries = [item[0] for item in queries_data if item]`.
The fetched range is a list of rows, each row a list of cell values (gspread
returns an empty list for a row whose cells are all empty); the comprehension
keeps only non-empty rows and takes their first cell. -/
def pyQueries (queriesData : List (List String)) : List String :=
  (queriesData.filter (fun item => !item.isEmpty)).map (fun item => item.headD "")

/-- The query loop (lines 198-227), producing the list of cell writes
(row, column, value) in order, together with a crash flag.  `k` is the loop
counter `i` (so the write row is `startRow + k`); `failAt`, when some n,
injects an unhandled exception in the n-th attempted `update_cell` call,
modelling a write failure that propagates to the top-level handler.  Rows
whose runQuery produces no cell value are skipped and the loop continues. -/
def loopFrom (envs : Nat → BrowserStep) (startRow tc : Nat) :
    Nat → Option Nat → List String → List (Nat × Nat × String) × Bool
  | _, _, [] => ([], false)
  | k, failAt, q :: rest =>
      match (runQuery (envs k) q).cell with
      | none => loopFrom envs startRow tc (k + 1) failAt rest
      | some v =>
          match failAt with
          | some 0 => ([], true)
          | some (n + 1) =>
              let r := loopFrom envs startRow tc (k + 1) (some n) rest
              ((startRow + k, tc, v) :: r.1, r.2)
          | none =>
              let r := loopFrom envs startRow tc (k + 1) none rest
              ((startRow + k, tc, v) :: r.1, r.2)

/-- Number of searches actually submitted over the loop. -/
def searchCountFrom (envs : Nat → BrowserStep) : Nat → List String → Nat
  | _, [] => 0
  | k, q :: rest =>
      (if (runQuery (envs k) q).searched then 1 else 0) +
        searchCountFrom envs (k + 1) rest

/-- Failure-injection environment of one whole run of main: connecting to the
sheets API (or fetching the worksheet or the query range) may raise; the
header row read by preparation; the fetched query rows; creating the
webdriver may raise; the browser behaviour per loop iteration; and an
optional failing cell write. -/
structure RunEnv where
  connectErr : Option String
  headerRow : List String
  queriesData : List (List String)
  webdriverErr : Option String
  steps : Nat → BrowserStep
  writeFailAt : Option Nat

/-- Observable trace of one run of main: how many crash reports the top-level
except block produced (each is one log record plus one crash email), whether
the webdriver was created, whether the finally block quit it, the cell writes
performed, and the process exit code. -/
structure RunTrace where
  crashReports : Nat
  driverAcquired : Bool
  driverReleased : Bool
  writes : List (Nat × Nat × String)
  exitCode : Nat

/-- main (lines 180-237): the try block runs connect, prepare, fetch,
get_webdriver, then the loop; any exception reaches the single top-level
except (one log + one crash email) and the finally block quits the driver
exactly when it was created; the process then exits 0 in every case. -/
def runMain (env : RunEnv) : RunTrace :=
  match env.connectErr with
  | some _ =>
      { crashReports := 1, driverAcquired := false, driverReleased := false,
        writes := [], exitCode := 0 }
  | none =>
      match prepare_sheet_and_get_target_column env.headerRow with
      | Except.error _ =>
          { crashReports := 1, driverAcquired := false, driverReleased := false,
            writes := [], exitCode := 0 }
      | Except.ok tc =>
          match env.webdriverErr with
          | some _ =>
              { crashReports := 1, driverAcquired := false,
                driverReleased := false, writes := [], exitCode := 0 }
          | none =>
              let r := loopFrom env.steps PDP_START_ROW tc 0 env.writeFailAt
                (pyQueries env.queriesData)
              { crashReports := if r.2 then 1 else 0, driverAcquired := true,
                driverReleased := true, writes := r.1, exitCode := 0 }

/-- worksheet.update_cell on a sheet modelled as a total function from
(row, column) to cell value. -/
def updateCell (sheet : Nat → Nat → String) (row col : Nat) (v : String) :
    Nat → Nat → String :=
  fun r c => if r = row ∧ c = col then v else sheet r c

/-! ## The date stamp (line 149): datetime.now().strftime('%d-%b-%Y') -/

/-- The twelve abbreviated month names produced by %b in the C locale. -/
def monthAbbrevs : List String :=
  ["Jan", "Feb", "Mar", "Apr", "May", "Jun",
   "Jul", "Aug", "Sep", "Oct", "Nov", "Dec"]

/-- %d: the day of the month zero-padded to two digits. -/
def pad2 (n : Nat) : List Char := [Nat.digitChar (n / 10 % 10), Nat.digitChar (n % 10)]

/-- strftime('%d-%b-%Y') for a given day, month index (0-based) and year,
for example "25-May-2024". -/
def strftime_dmY (day monIdx year : Nat) : String :=
  String.mk (pad2 day ++ '-' :: (monthAbbrevs.getD monIdx "Jan").data
    ++ '-' :: (Nat.repr year).data)

/-! ## Specification-side predicate for the extraction regex (claim C4) -/

/-- A decomposition of the stats text witnessing one occurrence of the
pattern `([\d,]+) result` (IGNORECASE): the text splits as pre ++ r ++ post
where r is a non-empty run of digits and commas, post starts with ` result`
case-insensitively, and the run is maximal to the left (the character before
it, if any, is not a digit or comma). -/
def goodSplit (l pre r post : List Char) : Prop :=
  l = pre ++ r ++ post ∧ r ≠ [] ∧ r.all isCountChar = true ∧
    startsWithResultCI post = true ∧
    (∀ c, pre.getLast? = some c → isCountChar c = false)

/-- A concrete browser step with no captcha and a fixed stats text, used by
concrete evaluations. -/
def envOkStats : BrowserStep :=
  { searchOk := true, landingSource := "plain results page",
    captchaPages := fun _ => "plain results page", captchaPolls := 0,
    scrapeOutcome := ScrapeOutcome.stats "About 5 results (0.1 seconds)" }

/-- A concrete failure-free run environment, used by concrete evaluations. -/
def envC6 : RunEnv :=
  { connectErr := none, headerRow := ["01-Jan-24"], queriesData := [["a"]],
    webdriverErr := none, steps := fun _ => envOkStats, writeFailAt := none }

/-! ## List index helpers -/

theorem listGetD_append_left {α : Type} (l l' : List α) (d : α) :
    ∀ m, m < l.length → (l ++ l').getD m d = l.getD m d := by
  induction l with
  | nil => intro m hm; simp at hm
  | cons c rest ih =>
      intro m hm
      cases m with
      | zero => simp
      | succ m' =>
          simp only [List.cons_append, List.getD_cons_succ]
          exact ih m' (by simpa using hm)

theorem listGetD_append_right {α : Type} (l l' : List α) (d : α) :
    ∀ m, l.length ≤ m → (l ++ l').getD m d = l'.getD (m - l.length) d := by
  induction l with
  | nil => intro m _; simp
  | cons c rest ih =>
      intro m hm
      cases m with
      | zero => simp at hm
      | succ m' =>
          simp only [List.cons_append, List.getD_cons_succ, List.length_cons,
            Nat.succ_sub_succ]
          exact ih m' (by simpa using hm)

/-! ## Characterization of the header-column scan -/

theorem lastTrackingAux_of_none (l : List String) :
    ∀ i acc, (∀ s ∈ l, isDateHeader s = false) → lastTrackingAux i acc l = acc := by
  induction l with
  | nil => intro i acc _; rfl
  | cons c rest ih =>
      intro i acc h
      have hc : isDateHeader c = false := h c (List.mem_cons_self c rest)
      simp only [lastTrackingAux, hc, if_false]
      exact ih (i + 1) acc (fun s hs => h s (List.mem_cons_of_mem c hs))

theorem lastTrackingAux_of_rightmost (l : List String) :
    ∀ i acc j, j < l.length → isDateHeader (l.getD j "") = true →
      (∀ m, m < l.length → j < m → isDateHeader (l.getD m "") = false) →
      lastTrackingAux i acc l = i + j + 1 := by
  induction l with
  | nil => intro i acc j hj _ _; simp at hj
  | cons c rest ih =>
      intro i acc j hj hmatch hafter
      cases j with
      | zero =>
          have hc : isDateHeader c = true := by simpa using hmatch
          simp only [lastTrackingAux, hc, if_true]
          have hrest : ∀ s ∈ rest, isDateHeader s = false := by
            intro s hs
            obtain ⟨m, hm, rfl⟩ := List.mem_iff_getElem.mp hs
            have := hafter (m + 1) (by simpa using hm) (Nat.succ_pos m)
            simpa [List.getD_eq_getElem?_getD, List.getElem?_eq_getElem hm] using this
          rw [lastTrackingAux_of_none rest (i + 1) (i + 1) hrest]
      | succ j' =>
          have hrec := ih (i + 1) (if isDateHeader c then i + 1 else acc) j'
            (by simpa using hj) (by simpa using hmatch)
            (fun m hm hjm => by
              have := hafter (m + 1) (by simpa using hm) (by omega)
              simpa using this)
          simp only [lastTrackingAux]
          rw [hrec]
          omega

theorem lastTrackingAux_cons (i acc : Nat) (c : String) (rest : List String) :
    lastTrackingAux i acc (c :: rest) =
      lastTrackingAux (i + 1) (if isDateHeader c then i + 1 else acc) rest := rfl

theorem getD_mem_of_lt {α : Type} (l : List α) (m : Nat) (d : α)
    (h : m < l.length) : l.getD m d ∈ l := by
  rw [List.getD_eq_getElem?_getD, List.getElem?_eq_getElem h]
  exact List.getElem_mem h

theorem lastTrackingAux_spec (l : List String) :
    ∀ i acc, (lastTrackingAux i acc l = acc ∧ ∀ s ∈ l, isDateHeader s = false) ∨
      (∃ j, j < l.length ∧ isDateHeader (l.getD j "") = true ∧
        lastTrackingAux i acc l = i + j + 1 ∧
        ∀ m, m < l.length → j < m → isDateHeader (l.getD m "") = false) := by
  induction l with
  | nil => intro i acc; left; exact ⟨rfl, by simp⟩
  | cons c rest ih =>
      intro i acc
      cases hc : isDateHeader c with
      | true =>
          right
          rcases ih (i + 1) (i + 1) with ⟨heq, hnone⟩ | ⟨j, hj, hm, heq, hafter⟩
          · refine ⟨0, by simp, by simpa using hc, ?_, ?_⟩
            · rw [lastTrackingAux_cons, hc, if_pos rfl, heq]
            · intro m hmm hms
              cases m with
              | zero => omega
              | succ m' =>
                  have hmem : rest.getD m' "" ∈ rest :=
                    getD_mem_of_lt rest m' "" (by simpa using hmm)
                  simpa using hnone _ hmem
          · refine ⟨j + 1, by simpa using hj, by simpa using hm, ?_, ?_⟩
            · rw [lastTrackingAux_cons, hc, if_pos rfl, heq]
              omega
            · intro m hmm hms
              cases m with
              | zero => omega
              | succ m' =>
                  have := hafter m' (by simpa using hmm) (by omega)
                  simpa using this
      | false =>
          rcases ih (i + 1) acc with ⟨heq, hnone⟩ | ⟨j, hj, hm, heq, hafter⟩
          · left
            refine ⟨?_, ?_⟩
            · rw [lastTrackingAux_cons, hc, if_neg (by simp), heq]
            · intro s hs
              rcases List.mem_cons.mp hs with rfl | hs'
              · exact hc
              · exact hnone s hs'
          · right
            refine ⟨j + 1, by simpa using hj, by simpa using hm, ?_, ?_⟩
            · rw [lastTrackingAux_cons, hc, if_neg (by simp), heq]
              omega
            · intro m hmm hms
              cases m with
              | zero => omega
              | succ m' =>
                  have := hafter m' (by simpa using hmm) (by omega)
                  simpa using this

/-- C2 helper: the scan yields exactly one plus the 0-based index of the
rightmost date-like cell. -/
theorem lastTrackingColIndex_rightmost (row : List String) (i : Nat)
    (hi : i < row.length) (hm : isDateHeader (row.getD i "") = true)
    (hafter : ∀ j, j < row.length → i < j → isDateHeader (row.getD j "") = false) :
    lastTrackingColIndex row = i + 1 := by
  simpa using lastTrackingAux_of_rightmost row 0 0 i hi hm hafter

theorem lastTrackingColIndex_of_none (row : List String)
    (h : ∀ s ∈ row, isDateHeader s = false) : lastTrackingColIndex row = 0 :=
  lastTrackingAux_of_none row 0 0 h

/-! ## Claim theorems -/

/-- C2: for every header row, prepare-target-column returns one plus the
1-based index of the rightmost cell containing a digit and a dash or slash,
inserts the new column at that index with the date stamped there; if no cell
matches, preparation raises, no column is inserted, and the run aborts before
any scraping (no browser, no writes).  Header row
["", "", "01-Jan-24", "15-Jan-24", ""] yields target column 5. -/
theorem C2_target_column :
    (∀ (row : List String) (i : Nat), i < row.length →
      isDateHeader (row.getD i "") = true →
      (∀ j, j < row.length → i < j → isDateHeader (row.getD j "") = false) →
      prepare_sheet_and_get_target_column row = Except.ok (i + 2) ∧
      ∀ today, prepareHeaderEffect row today =
        some (row.take (i + 1) ++ today :: row.drop (i + 1), i + 2)) ∧
    (∀ row : List String, (∀ s ∈ row, isDateHeader s = false) →
      prepare_sheet_and_get_target_column row =
        Except.error "Could not find any date-like headers in row 2 to determine where to insert the new column." ∧
      (∀ today, prepareHeaderEffect row today = none) ∧
      (∀ env : RunEnv, env.headerRow = row →
        (runMain env).writes = [] ∧ (runMain env).driverAcquired = false)) ∧
    prepare_sheet_and_get_target_column ["", "", "01-Jan-24", "15-Jan-24", ""] =
      Except.ok 5 := by
  refine ⟨?_, ?_, rfl⟩
  · intro row i hi hm hafter
    have hlast : lastTrackingColIndex row = i + 1 :=
      lastTrackingColIndex_rightmost row i hi hm hafter
    have hok : prepare_sheet_and_get_target_column row = Except.ok (i + 2) := by
      simp [prepare_sheet_and_get_target_column, hlast]
    refine ⟨hok, fun today => ?_⟩
    simp [prepareHeaderEffect, hok]
  · intro row hnone
    have hlast : lastTrackingColIndex row = 0 := lastTrackingColIndex_of_none row hnone
    have herr : prepare_sheet_and_get_target_column row =
        Except.error "Could not find any date-like headers in row 2 to determine where to insert the new column." := by
      simp [prepare_sheet_and_get_target_column, hlast]
    refine ⟨herr, fun today => ?_, fun env henv => ?_⟩
    · simp [prepareHeaderEffect, herr]
    · cases hconn : env.connectErr with
      | some e => simp [runMain, hconn]
      | none => simp [runMain, hconn, henv, herr]

/-- Witness for C2: scenario A evaluated concretely through the theorem. -/
theorem C2_witness :
    prepare_sheet_and_get_target_column ["", "", "01-Jan-24", "15-Jan-24", ""] =
      Except.ok 5 ∧
    prepareHeaderEffect ["", "", "01-Jan-24", "15-Jan-24", ""] "25-May-2024" =
      some (["", "", "01-Jan-24", "15-Jan-24", "25-May-2024", ""], 5) := by
  have h := C2_target_column.1 ["", "", "01-Jan-24", "15-Jan-24", ""] 3
    (by decide) (by decide) (by decide)
  exact ⟨h.1, (h.2 "25-May-2024").trans (by decide)⟩

/-- C9: update_cell writes exactly one cell: the value lands at
(row, column) and every other row, and every other column of the same row,
is unchanged. -/
theorem C9_write_frame :
    ∀ (sheet : Nat → Nat → String) (row col : Nat) (v : String),
      updateCell sheet row col v row col = v ∧
      (∀ r c, r ≠ row → updateCell sheet row col v r c = sheet r c) ∧
      (∀ c, c ≠ col → updateCell sheet row col v row c = sheet row c) := by
  intro sheet row col v
  refine ⟨by simp [updateCell], fun r c hr => ?_, fun c hc => ?_⟩
  · simp only [updateCell]
    rw [if_neg]
    rintro ⟨rfl, -⟩
    exact hr rfl
  · simp only [updateCell]
    rw [if_neg]
    rintro ⟨-, rfl⟩
    exact hc rfl

/-! ## Captcha handler lemmas -/

theorem handle_captcha_all_blocked (pages : Nat → String) :
    ∀ fuel k aS, (∀ j, k ≤ j → j < k + fuel → captchaBlocked (pages j) = true) →
      handle_captcha pages fuel k aS =
        (false, (if fuel = 0 then 0 else if aS then 0 else 1), fuel) := by
  intro fuel
  induction fuel with
  | zero => intro k aS _; rfl
  | succ fuel ih =>
      intro k aS h
      have hk : captchaBlocked (pages k) = true := h k (Nat.le_refl k) (by omega)
      have hrec := ih (k + 1) true (fun j h1 h2 => h j (by omega) (by omega))
      simp only [handle_captcha, hk, if_true, hrec]
      cases fuel with
      | zero => cases aS <;> simp
      | succ fuel' => cases aS <;> simp <;> omega

theorem handle_captcha_first_clear (pages : Nat → String) :
    ∀ fuel k aS m, m < fuel →
      captchaBlocked (pages (k + m)) = false →
      (∀ j, k ≤ j → j < k + m → captchaBlocked (pages j) = true) →
      handle_captcha pages fuel k aS =
        (true, (if m = 0 then 0 else if aS then 0 else 1), m + 1) := by
  intro fuel
  induction fuel with
  | zero => intro k aS m hm; omega
  | succ fuel ih =>
      intro k aS m hm hclear hall
      cases m with
      | zero =>
          have hk : captchaBlocked (pages k) = false := by simpa using hclear
          simp [handle_captcha, hk]
      | succ m' =>
          have hk : captchaBlocked (pages k) = true :=
            hall k (Nat.le_refl k) (by omega)
          have hrec := ih (k + 1) true m' (by omega)
            (by have : k + 1 + m' = k + (m' + 1) := by omega
                rw [this]; exact hclear)
            (fun j h1 h2 => hall j (by omega) (by omega))
          simp only [handle_captcha, hk, if_true, hrec]
          cases m' with
          | zero => cases aS <;> simp
          | succ m'' => cases aS <;> simp <;> omega

/-! ## Per-query and loop lemmas -/

theorem runQuery_cell_none (e : BrowserStep) (q : String)
    (hb : isBlank q = false) (hs : e.searchOk = false) :
    (runQuery e q).cell = none := by
  simp [runQuery, hb, hs]

theorem runQuery_blank (e : BrowserStep) (q : String) (hb : isBlank q = true) :
    runQuery e q =
      { cell := some "", usedBrowser := false, searched := false, emails := 0 } := by
  simp [runQuery, hb]

theorem runQuery_cell_isSome (e : BrowserStep) (q : String)
    (hs : e.searchOk = true) : ((runQuery e q).cell).isSome = true := by
  by_cases hb : isBlank q = true
  · simp [runQuery, hb]
  · by_cases hd : captchaDetectedOn e.landingSource = true
    · by_cases hc1 : (handleCaptcha e.captchaPages e.captchaPolls).1 = true
      · simp [runQuery, hb, hs, hd, hc1]
      · simp [runQuery, hb, hs, hd, hc1]
    · simp [runQuery, hb, hs, hd]

theorem runQuery_searched_of_searchOk (e : BrowserStep) (q : String)
    (hs : e.searchOk = true) : (runQuery e q).searched = !isBlank q := by
  by_cases hb : isBlank q = true
  · simp [runQuery, hb]
  · by_cases hd : captchaDetectedOn e.landingSource = true
    · by_cases hc1 : (handleCaptcha e.captchaPages e.captchaPolls).1 = true
      · simp [runQuery, hb, hs, hd, hc1]
      · simp [runQuery, hb, hs, hd, hc1]
    · simp [runQuery, hb, hs, hd]

theorem loopFrom_mem_of_cell (envs : Nat → BrowserStep) (startRow tc : Nat) :
    ∀ (qs : List String) (k0 j : Nat), j < qs.length →
      ∀ v, (runQuery (envs (k0 + j)) (qs.getD j "")).cell = some v →
        (startRow + (k0 + j), tc, v) ∈ (loopFrom envs startRow tc k0 none qs).1 := by
  intro qs
  induction qs with
  | nil => intro k0 j hj; simp at hj
  | cons q rest ih =>
      intro k0 j hj v hv
      cases j with
      | zero =>
          simp only [Nat.add_zero, List.getD_cons_zero] at hv
          simp only [loopFrom, hv, Nat.add_zero]
          exact List.mem_cons_self _ _
      | succ j' =>
          have hv' : (runQuery (envs (k0 + 1 + j')) (rest.getD j' "")).cell = some v := by
            have : k0 + 1 + j' = k0 + (j' + 1) := by omega
            rw [this]
            simpa using hv
          have hmem := ih (k0 + 1) j' (by simpa using hj) v hv'
          have harith : k0 + 1 + j' = k0 + (j' + 1) := by omega
          rw [harith] at hmem
          simp only [loopFrom]
          cases hc : (runQuery (envs k0) q).cell with
          | none => exact hmem
          | some w => exact List.mem_cons_of_mem _ hmem

theorem loopFrom_mem_inv (envs : Nat → BrowserStep) (startRow tc : Nat) :
    ∀ (qs : List String) (k0 : Nat) (w : Nat × Nat × String),
      w ∈ (loopFrom envs startRow tc k0 none qs).1 →
      ∃ j, j < qs.length ∧ w.1 = startRow + (k0 + j) ∧ w.2.1 = tc ∧
        (runQuery (envs (k0 + j)) (qs.getD j "")).cell = some w.2.2 := by
  intro qs
  induction qs with
  | nil => intro k0 w hw; simp [loopFrom] at hw
  | cons q rest ih =>
      intro k0 w hw
      simp only [loopFrom] at hw
      cases hc : (runQuery (envs k0) q).cell with
      | none =>
          rw [hc] at hw
          obtain ⟨j, hj, h1, h2, h3⟩ := ih (k0 + 1) w hw
          refine ⟨j + 1, by simpa using hj, ?_, h2, ?_⟩
          · rw [h1]; congr 1; omega
          · have : k0 + (j + 1) = k0 + 1 + j := by omega
            rw [this]
            simpa using h3
      | some v =>
          rw [hc] at hw
          rcases List.mem_cons.mp hw with rfl | hw'
          · exact ⟨0, by simp, by simp, rfl, by simpa using hc⟩
          · obtain ⟨j, hj, h1, h2, h3⟩ := ih (k0 + 1) w hw'
            refine ⟨j + 1, by simpa using hj, ?_, h2, ?_⟩
            · rw [h1]; congr 1; omega
            · have : k0 + (j + 1) = k0 + 1 + j := by omega
              rw [this]
              simpa using h3

/-- C5: for every CAPTCHA episode (block markers present at the first check),
exactly one notification email is sent no matter how many polls occur; the
handler returns true at the very first check at which the markers are gone,
and false exactly when all checks up to the timeout still see the markers;
on false the sentinel "CAPTCHA FAILED" is the value written to the row, and
the loop still processes the following queries. -/
theorem C5_captcha_episode :
    ∀ (pages : Nat → String) (maxPolls : Nat),
      1 ≤ maxPolls →
      captchaBlocked (pages 0) = true →
      ((∀ k, k < maxPolls → captchaBlocked (pages k) = true) →
        handleCaptcha pages maxPolls = (false, 1, maxPolls)) ∧
      (∀ k, k < maxPolls → captchaBlocked (pages k) = false →
        (∀ j, j < k → captchaBlocked (pages j) = true) →
        handleCaptcha pages maxPolls = (true, 1, k + 1)) ∧
      (∀ (e : BrowserStep) (q : String),
        isBlank q = false → e.searchOk = true →
        captchaDetectedOn e.landingSource = true →
        e.captchaPages = pages → e.captchaPolls = maxPolls →
        (∀ k, k < maxPolls → captchaBlocked (pages k) = true) →
        (runQuery e q).cell = some "CAPTCHA FAILED") ∧
      (∀ (envs : Nat → BrowserStep) (qs : List String) (startRow tc k : Nat),
        k < qs.length →
        (runQuery (envs k) (qs.getD k "")).cell = some "CAPTCHA FAILED" →
        (startRow + k, tc, "CAPTCHA FAILED") ∈
            (loopFrom envs startRow tc 0 none qs).1 ∧
          ∀ j, j < qs.length → ∀ v,
            (runQuery (envs j) (qs.getD j "")).cell = some v →
            (startRow + j, tc, v) ∈ (loopFrom envs startRow tc 0 none qs).1) := by
  intro pages maxPolls hpolls hblock0
  have hfail : (∀ k, k < maxPolls → captchaBlocked (pages k) = true) →
      handleCaptcha pages maxPolls = (false, 1, maxPolls) := by
    intro hall
    have := handle_captcha_all_blocked pages maxPolls 0 false
      (fun j h1 h2 => hall j (by omega))
    rw [handleCaptcha, this]
    have : ¬ maxPolls = 0 := by omega
    simp [this]
  refine ⟨hfail, ?_, ?_, ?_⟩
  · intro k hk hclear hbefore
    cases k with
    | zero => rw [hblock0] at hclear; cases hclear
    | succ k' =>
        have := handle_captcha_first_clear pages maxPolls 0 false (k' + 1) hk
          (by simpa using hclear) (fun j h1 h2 => hbefore j (by omega))
        rw [handleCaptcha, this]
        simp
  · intro e q hb hs hd hpg hpl hall
    have hhc : handleCaptcha e.captchaPages e.captchaPolls = (false, 1, maxPolls) := by
      rw [hpg, hpl]
      exact hfail hall
    simp [runQuery, hb, hs, hd, hhc]
  · intro envs qs startRow tc k hk hcell
    constructor
    · have := loopFrom_mem_of_cell envs startRow tc qs 0 k hk "CAPTCHA FAILED"
        (by simpa using hcell)
      simpa using this
    · intro j hj v hv
      have := loopFrom_mem_of_cell envs startRow tc qs 0 j hj v (by simpa using hv)
      simpa using this

/-- Witness for C5: two blocked polls yield result false with exactly one
email and two checks, and the sentinel lands in the cell of the row. -/
theorem C5_witness :
    handleCaptcha (fun _ => "reCAPTCHA wall") 2 = (false, 1, 2) ∧
    (runQuery
      { searchOk := true, landingSource := "reCAPTCHA wall",
        captchaPages := fun _ => "reCAPTCHA wall", captchaPolls := 2,
        scrapeOutcome := ScrapeOutcome.unexpected } "q").cell =
      some "CAPTCHA FAILED" := by
  have h := C5_captcha_episode (fun _ => "reCAPTCHA wall") 2 (by decide) (by decide)
  exact ⟨h.1 (by decide), h.2.2.1 _ "q" (by decide) rfl (by decide) rfl rfl (by decide)⟩

/-- C7: when the search box is not found for a non-blank query, no cell is
written for that row, while every other row contribution still appears and
the loop continues without raising. -/
theorem C7_search_failure_skips_row :
    ∀ (envs : Nat → BrowserStep) (qs : List String) (startRow tc k : Nat),
      k < qs.length →
      isBlank (qs.getD k "") = false →
      (envs k).searchOk = false →
      (∀ v, (startRow + k, tc, v) ∉ (loopFrom envs startRow tc 0 none qs).1) ∧
      (∀ j, j < qs.length → j ≠ k →
        ∀ v, (runQuery (envs j) (qs.getD j "")).cell = some v →
          (startRow + j, tc, v) ∈ (loopFrom envs startRow tc 0 none qs).1) := by
  intro envs qs startRow tc k hk hb hs
  constructor
  · intro v hmem
    obtain ⟨j, hj, h1, h2, h3⟩ := loopFrom_mem_inv envs startRow tc qs 0 _ hmem
    simp only [Nat.zero_add] at h1 h3
    have hjk : j = k := by omega
    subst hjk
    rw [runQuery_cell_none (envs j) (qs.getD j "") (by simpa using hb) hs] at h3
    cases h3
  · intro j hj _ v hv
    have := loopFrom_mem_of_cell envs startRow tc qs 0 j hj v (by simpa using hv)
    simpa using this

/-- Witness for C7: with the second search box lookup failing, row 5 gets no
write while row 6 is still written. -/
theorem C7_witness :
    (4 + 1, 6, "x") ∉ (loopFrom
        (fun k => if k = 1 then { envOkStats with searchOk := false } else envOkStats)
        4 6 0 none ["a", "b", "c"]).1 ∧
    (4 + 2, 6, "5") ∈ (loopFrom
        (fun k => if k = 1 then { envOkStats with searchOk := false } else envOkStats)
        4 6 0 none ["a", "b", "c"]).1 := by
  have h := C7_search_failure_skips_row
    (fun k => if k = 1 then { envOkStats with searchOk := false } else envOkStats)
    ["a", "b", "c"] 4 6 1 (by decide) (by decide) (by decide)
  exact ⟨h.1 "x", h.2 2 (by decide) (by decide) "5" (by decide)⟩

/-- C8: a query of only whitespace produces the empty result with no browser
operation at all (no navigation, no typing, no scraping, no captcha email),
and the empty string is still written to the cell of that row. -/
theorem C8_blank_query :
    ∀ (envs : Nat → BrowserStep) (qs : List String) (startRow tc k : Nat),
      k < qs.length →
      isBlank (qs.getD k "") = true →
      runQuery (envs k) (qs.getD k "") =
        { cell := some "", usedBrowser := false, searched := false, emails := 0 } ∧
      (startRow + k, tc, "") ∈ (loopFrom envs startRow tc 0 none qs).1 := by
  intro envs qs startRow tc k hk hb
  have h1 := runQuery_blank (envs k) (qs.getD k "") hb
  refine ⟨h1, ?_⟩
  have := loopFrom_mem_of_cell envs startRow tc qs 0 k hk ""
    (by rw [Nat.zero_add, h1])
  simpa using this

/-- Witness for C8: the whitespace query in the middle of a list produces an
empty cell for its own row and uses no browser. -/
theorem C8_witness :
    runQuery envOkStats " " =
      { cell := some "", usedBrowser := false, searched := false, emails := 0 } ∧
    (4 + 1, 6, "") ∈ (loopFrom (fun _ => envOkStats) 4 6 0 none ["a", " ", "b"]).1 := by
  have h := C8_blank_query (fun _ => envOkStats) ["a", " ", "b"] 4 6 1
    (by decide) (by decide)
  exact ⟨h.1, h.2⟩

/-! ## All-searches-succeed loop lemmas (claim C1) -/

theorem loopFrom_length_allOk (envs : Nat → BrowserStep) (startRow tc : Nat)
    (hok : ∀ k, (envs k).searchOk = true) :
    ∀ (qs : List String) (k0 : Nat),
      (loopFrom envs startRow tc k0 none qs).1.length = qs.length := by
  intro qs
  induction qs with
  | nil => intro k0; rfl
  | cons q rest ih =>
      intro k0
      have hsome := runQuery_cell_isSome (envs k0) q (hok k0)
      cases hc : (runQuery (envs k0) q).cell with
      | none => rw [hc] at hsome; cases hsome
      | some v =>
          simp only [loopFrom, hc, List.length_cons]
          rw [ih (k0 + 1)]

theorem loopFrom_getD_allOk (envs : Nat → BrowserStep) (startRow tc : Nat)
    (hok : ∀ k, (envs k).searchOk = true) :
    ∀ (qs : List String) (k0 j : Nat), j < qs.length →
      (loopFrom envs startRow tc k0 none qs).1.getD j (0, 0, "") =
        (startRow + (k0 + j), tc,
          ((runQuery (envs (k0 + j)) (qs.getD j "")).cell).getD "") := by
  intro qs
  induction qs with
  | nil => intro k0 j hj; simp at hj
  | cons q rest ih =>
      intro k0 j hj
      have hsome := runQuery_cell_isSome (envs k0) q (hok k0)
      cases hc : (runQuery (envs k0) q).cell with
      | none => rw [hc] at hsome; cases hsome
      | some v =>
          cases j with
          | zero => simp [loopFrom, hc]
          | succ j' =>
              simp only [loopFrom, hc, List.getD_cons_succ]
              rw [ih (k0 + 1) j' (by simpa using hj)]
              have harith : k0 + 1 + j' = k0 + (j' + 1) := by omega
              rw [harith]

theorem searchCountFrom_allOk (envs : Nat → BrowserStep)
    (hok : ∀ k, (envs k).searchOk = true) :
    ∀ (qs : List String) (k0 : Nat),
      searchCountFrom envs k0 qs = (qs.filter (fun q => !isBlank q)).length := by
  intro qs
  induction qs with
  | nil => intro k0; rfl
  | cons q rest ih =>
      intro k0
      have hsr := runQuery_searched_of_searchOk (envs k0) q (hok k0)
      by_cases hb : isBlank q = true
      · simp [searchCountFrom, hsr, hb, List.filter_cons, ih (k0 + 1)]
      · have hb' : isBlank q = false := by simpa using hb
        simp only [searchCountFrom, hsr, hb', Bool.not_false, if_true,
          List.filter_cons]
        rw [ih (k0 + 1)]
        simp [hb']
        omega

/-- C1 (amended): the loop first drops the query rows fetched as empty lists
(`if item` in the comprehension); among the remaining rows, each produces
exactly one result cell in order, with whitespace-only query texts kept as
placeholders mapped to the empty result; when every search box lookup
succeeds, the number of cells written equals the number of kept (non-empty)
fetched rows, the j-th kept row is written to row startRow + j (its own
fetched row only when no earlier fetched row was dropped), and one search is
performed per non-blank kept query. -/
theorem C1_amended_row_alignment :
    ∀ (envs : Nat → BrowserStep) (d : List (List String)) (startRow tc : Nat),
      (∀ k, (envs k).searchOk = true) →
      (loopFrom envs startRow tc 0 none (pyQueries d)).1.length =
          (pyQueries d).length ∧
      (pyQueries d).length = (d.filter (fun item => !item.isEmpty)).length ∧
      (∀ j, j < (pyQueries d).length →
        (loopFrom envs startRow tc 0 none (pyQueries d)).1.getD j (0, 0, "") =
          (startRow + j, tc,
            ((runQuery (envs j) ((pyQueries d).getD j "")).cell).getD "")) ∧
      (∀ j, j < (pyQueries d).length → isBlank ((pyQueries d).getD j "") = true →
        (loopFrom envs startRow tc 0 none (pyQueries d)).1.getD j (0, 0, "") =
          (startRow + j, tc, "")) ∧
      searchCountFrom envs 0 (pyQueries d) =
        ((pyQueries d).filter (fun q => !isBlank q)).length := by
  intro envs d startRow tc hok
  refine ⟨loopFrom_length_allOk envs startRow tc hok _ 0, by simp [pyQueries],
    ?_, ?_, searchCountFrom_allOk envs hok _ 0⟩
  · intro j hj
    have h := loopFrom_getD_allOk envs startRow tc hok (pyQueries d) 0 j hj
    simpa using h
  · intro j hj hb
    have h := loopFrom_getD_allOk envs startRow tc hok (pyQueries d) 0 j hj
    simp only [Nat.zero_add] at h
    rw [h, runQuery_blank (envs j) _ hb]
    rfl

/-- Counterexample for C1 as stated: three rows are fetched (the middle one
an empty list, as the sheets API returns for a blank cell), but only two
cells are written, and the third row value lands in the second row cell. -/
theorem C1_counterexample :
    pyQueries [["q1"], [], ["q3"]] = ["q1", "q3"] ∧
    ([["q1"], [], ["q3"]] : List (List String)).length = 3 ∧
    (loopFrom (fun _ => envOkStats) 4 6 0 none (pyQueries [["q1"], [], ["q3"]])).1 =
      [(4, 6, "5"), (5, 6, "5")] := by
  exact ⟨by decide, by decide, by decide⟩

/-- Witness for C1 (amended): a kept whitespace row gives an empty cell in
place, and two searches are performed for the two non-blank queries. -/
theorem C1_witness :
    (loopFrom (fun _ => envOkStats) 4 6 0 none
        (pyQueries [["a"], [" "], ["b"]])).1.getD 1 (0, 0, "") = (4 + 1, 6, "") ∧
    searchCountFrom (fun _ => envOkStats) 0 (pyQueries [["a"], [" "], ["b"]]) = 2 := by
  have h := C1_amended_row_alignment (fun _ => envOkStats) [["a"], [" "], ["b"]]
    4 6 (fun k => rfl)
  refine ⟨h.2.2.2.1 1 (by decide) (by decide), ?_⟩
  rw [h.2.2.2.2]
  decide

/-- C6: every failure in setup or the loop is caught exactly once at the top
level and reported (one log record and one crash email); the browser is
released exactly when it was acquired, on every exit path; and the process
exit code is 0 regardless of inner success or failure. -/
theorem C6_top_level :
    ∀ env : RunEnv,
      (runMain env).exitCode = 0 ∧
      (runMain env).driverReleased = (runMain env).driverAcquired ∧
      (runMain env).crashReports ≤ 1 ∧
      ((runMain env).crashReports = 0 ↔
        env.connectErr = none ∧ env.webdriverErr = none ∧
          ∃ n, prepare_sheet_and_get_target_column env.headerRow = Except.ok n ∧
            (loopFrom env.steps PDP_START_ROW n 0 env.writeFailAt
              (pyQueries env.queriesData)).2 = false) ∧
      ((runMain env).driverAcquired = true ↔
        env.connectErr = none ∧ env.webdriverErr = none ∧
          ∃ n, prepare_sheet_and_get_target_column env.headerRow = Except.ok n) := by
  intro env
  cases hconn : env.connectErr with
  | some e => simp [runMain, hconn]
  | none =>
      cases hprep : prepare_sheet_and_get_target_column env.headerRow with
      | error msg => simp [runMain, hconn, hprep]
      | ok n =>
          cases hwd : env.webdriverErr with
          | some e => simp [runMain, hconn, hprep, hwd]
          | none =>
              cases hcr : (loopFrom env.steps PDP_START_ROW n 0 env.writeFailAt
                  (pyQueries env.queriesData)).2 with
              | false => simp [runMain, hconn, hprep, hwd, hcr]
              | true => simp [runMain, hconn, hprep, hwd, hcr]

/-- Witness for C6: a failure-free run exits 0, reports no crash, and
releases the browser it acquired. -/
theorem C6_witness :
    (runMain envC6).exitCode = 0 ∧ (runMain envC6).crashReports = 0 ∧
    (runMain envC6).driverReleased = true := by
  have h := C6_top_level envC6
  refine ⟨h.1, h.2.2.2.1.mpr ⟨rfl, rfl, 2, rfl, by decide⟩, ?_⟩
  rw [h.2.1]
  exact h.2.2.2.2.mpr ⟨rfl, rfl, 2, rfl⟩

/-- Witness for C9: a concrete write touches (4,6) and nothing else. -/
theorem C9_witness :
    updateCell (fun _ _ => "old") 4 6 "new" 4 6 = "new" ∧
    updateCell (fun _ _ => "old") 4 6 "new" 5 6 = "old" ∧
    updateCell (fun _ _ => "old") 4 6 "new" 4 7 = "old" := by
  have h := C9_write_frame (fun _ _ => "old") 4 6 "new"
  exact ⟨h.1, h.2.1 5 6 (by decide), h.2.2 7 (by decide)⟩

/-! ## Claim C10: the stamped date is itself a date-like header -/

theorem listGetD_drop {α : Type} (l : List α) (d : α) :
    ∀ n m, (l.drop n).getD m d = l.getD (n + m) d := by
  induction l with
  | nil => intro n m; simp
  | cons c rest ih =>
      intro n m
      cases n with
      | zero => simp
      | succ n' =>
          simp only [List.drop_succ_cons, ih n' m]
          have : n' + 1 + m = (n' + m) + 1 := by omega
          rw [this, List.getD_cons_succ]

theorem digitChar_isDigit : ∀ k, k < 10 → (Nat.digitChar k).isDigit = true := by
  decide

theorem isDateHeader_strftime (day monIdx year : Nat) :
    isDateHeader (strftime_dmY day monIdx year) = true := by
  rw [isDateHeader, strftime_dmY]
  rw [Bool.and_eq_true, Bool.or_eq_true]
  constructor
  · apply List.any_eq_true.mpr
    refine ⟨Nat.digitChar (day / 10 % 10), ?_, ?_⟩
    · apply List.mem_append_left
      exact List.mem_cons_self _ _
    · exact digitChar_isDigit _ (Nat.mod_lt _ (by norm_num))
  · left
    apply List.elem_eq_true_of_mem
    apply List.mem_append_right
    exact List.mem_cons_self _ _

/-- C10: the stamped date string (format day-MonthAbbrev-Year) contains a
digit and a dash, so it satisfies the date-header predicate of the column
scan; hence after preparation the rightmost date-like cell of the header row
is exactly the newly inserted column, and a subsequent run would select the
column one past it. -/
theorem C10_stamp_date_header :
    ∀ (day monIdx year : Nat) (row : List String) (n : Nat),
      prepare_sheet_and_get_target_column row = Except.ok n →
      isDateHeader (strftime_dmY day monIdx year) = true ∧
      ∀ row2, prepareHeaderEffect row (strftime_dmY day monIdx year) =
          some (row2, n) →
        lastTrackingColIndex row2 = n ∧
        prepare_sheet_and_get_target_column row2 = Except.ok (n + 1) := by
  intro day monIdx year row n hok
  refine ⟨isDateHeader_strftime day monIdx year, ?_⟩
  intro row2 heff
  -- unpack the success of preparation
  by_cases hzero : lastTrackingColIndex row = 0
  · exfalso
    rw [prepare_sheet_and_get_target_column] at hok
    rw [hzero] at hok
    simp at hok
  have hn : n = lastTrackingColIndex row + 1 := by
    rw [prepare_sheet_and_get_target_column] at hok
    simp only [hzero, if_neg hzero] at hok
    exact (Except.ok.inj hok).symm
  -- the scan characterization of the original row
  rcases lastTrackingAux_spec row 0 0 with ⟨heq, hnone⟩ | ⟨j, hj, hm, heq, hafter⟩
  · exact absurd heq hzero
  have hlastj : lastTrackingColIndex row = j + 1 := by simpa using heq
  have hnj : n = j + 2 := by omega
  -- unpack the header effect
  rw [prepareHeaderEffect, hok] at heff
  have hrow2 : row2 = row.take (n - 1) ++ strftime_dmY day monIdx year :: row.drop (n - 1) := by
    have := Option.some.inj heff
    exact (congrArg Prod.fst this).symm
  have htklen : (row.take (n - 1)).length = j + 1 := by
    rw [List.length_take]
    omega
  have hrow2len : row2.length = row.length + 1 := by
    rw [hrow2]
    simp only [List.length_append, List.length_cons, List.length_drop, htklen]
    omega
  -- the new cell sits at 0-based index j + 1 and matches
  have hcell : row2.getD (j + 1) "" = strftime_dmY day monIdx year := by
    rw [hrow2, listGetD_append_right _ _ _ (j + 1) (by rw [htklen])]
    rw [htklen]
    simp
  -- no match at any index past the new cell
  have hafter2 : ∀ m, m < row2.length → j + 1 < m →
      isDateHeader (row2.getD m "") = false := by
    intro m hmlen hjm
    obtain ⟨t, rfl⟩ : ∃ t, m = j + 2 + t := ⟨m - j - 2, by omega⟩
    have hidx : row2.getD (j + 2 + t) "" = row.getD (j + 1 + t) "" := by
      rw [hrow2, listGetD_append_right _ _ _ (j + 2 + t) (by rw [htklen]; omega)]
      rw [htklen]
      have h1 : j + 2 + t - (j + 1) = t + 1 := by omega
      rw [h1, List.getD_cons_succ]
      have h2 : n - 1 = j + 1 := by omega
      rw [h2, listGetD_drop]
    rw [hidx]
    exact hafter (j + 1 + t) (by omega) (by omega)
  have hmatch2 : isDateHeader (row2.getD (j + 1) "") = true := by
    rw [hcell]
    exact isDateHeader_strftime day monIdx year
  have hlast2 : lastTrackingColIndex row2 = j + 2 :=
    lastTrackingColIndex_rightmost row2 (j + 1) (by omega) hmatch2 hafter2
  constructor
  · rw [hlast2]
    omega
  · rw [prepare_sheet_and_get_target_column]
    simp only [hlast2]
    rw [if_neg (by omega)]
    congr 1
    omega

/-- Witness for C10: stamping "25-May-2024" after a one-column header makes
the stamped column the rightmost date-like cell, and a second run selects
the column after it. -/
theorem C10_witness :
    isDateHeader (strftime_dmY 25 4 2024) = true ∧
    lastTrackingColIndex ["01-Jan-24", strftime_dmY 25 4 2024] = 2 ∧
    prepare_sheet_and_get_target_column ["01-Jan-24", strftime_dmY 25 4 2024] =
      Except.ok 3 := by
  have h := C10_stamp_date_header 25 4 2024 ["01-Jan-24"] 2 rfl
  have h2 := h.2 ["01-Jan-24", strftime_dmY 25 4 2024] (by rfl)
  exact ⟨h.1, h2.1, h2.2⟩

/-! ## Claim C3: totality and value kinds of the scrape step -/

theorem all_takeWhile_self {α : Type} (p : α → Bool) :
    ∀ l : List α, (l.takeWhile p).all p = true := by
  intro l
  induction l with
  | nil => rfl
  | cons c rest ih =>
      by_cases hc : p c = true
      · simp [List.takeWhile_cons, hc, ih]
      · simp [List.takeWhile_cons, hc]

theorem findCountFuel_sound :
    ∀ fuel l r, findCountFuel fuel l = some r →
      r ≠ [] ∧ r.all isCountChar = true := by
  intro fuel
  induction fuel with
  | zero => intro l r h; cases h
  | succ fuel ih =>
      intro l r h
      cases l with
      | nil => cases h
      | cons c rest =>
          by_cases hc : isCountChar c = true
          · by_cases hsw : startsWithResultCI (rest.dropWhile isCountChar) = true
            · rw [findCountFuel, if_pos hc, if_pos hsw] at h
              obtain rfl := (Option.some.inj h).symm
              refine ⟨by simp, ?_⟩
              simp [List.all_cons, hc, all_takeWhile_self]
            · rw [findCountFuel, if_pos hc, if_neg hsw] at h
              exact ih _ _ h
          · rw [findCountFuel, if_neg hc] at h
            exact ih _ _ h

/-- C3 (amended): the scrape step is total and never raises; it returns "0",
"Scrape Failed", a non-empty digits-and-commas string, or - when the stats
text contains no digits-and-commas token immediately before the word
"result" - the Python value None (stringified to "None" at the cell write),
a fifth kind the original claim omits. -/
theorem C3_amended_totality :
    ∀ o : ScrapeOutcome,
      (∃ s, scrape_result_count o = some s ∧
        (s = "0" ∨ s = "Scrape Failed" ∨ (s ≠ "" ∧ s.data.all isCountChar = true))) ∨
      (∃ t, o = ScrapeOutcome.stats t ∧ scrape_result_count o = none ∧
        findCount t.data = none) := by
  intro o
  cases o with
  | stats t =>
      cases hf : findCount t.data with
      | none => exact Or.inr ⟨t, rfl, by simp [scrape_result_count, hf], hf⟩
      | some r =>
          left
          obtain ⟨hne, hall⟩ := findCountFuel_sound _ _ _ hf
          refine ⟨String.mk r, by simp [scrape_result_count, hf],
            Or.inr (Or.inr ⟨?_, ?_⟩)⟩
          · intro hcontra
            apply hne
            have := congrArg String.data hcontra
            simpa using this
          · simpa using hall
  | waitTimeout src =>
      by_cases hnr : containsSubstr src NO_RESULTS_TEXT = true
      · exact Or.inl ⟨"0", by simp [scrape_result_count, hnr], Or.inl rfl⟩
      · exact Or.inl ⟨"Scrape Failed", by simp [scrape_result_count, hnr],
          Or.inr (Or.inl rfl)⟩
  | unexpected => exact Or.inl ⟨"Scrape Failed", rfl, Or.inr (Or.inl rfl)⟩

/-- Counterexample for C3 as stated: a stats text with no "result" token makes
the Python function fall off the try block and return None - not one of the
four result-value kinds - and main then writes the string "None" to the cell. -/
theorem C3_counterexample :
    scrape_result_count (ScrapeOutcome.stats "About 5 items found (0.42 seconds)") =
      none ∧
    pyStr (scrape_result_count
      (ScrapeOutcome.stats "About 5 items found (0.42 seconds)")) = "None" ∧
    "None" ≠ "0" ∧ "None" ≠ "Scrape Failed" ∧ "None" ≠ "" := by
  exact ⟨by decide, by decide, by decide, by decide, by decide⟩

/-- Witness for C3 (amended): a concrete instance of each interesting branch. -/
theorem C3_witness :
    (∃ s, scrape_result_count (ScrapeOutcome.waitTimeout "a page with No results found for q") = some s ∧
      (s = "0" ∨ s = "Scrape Failed" ∨ (s ≠ "" ∧ s.data.all isCountChar = true))) ∨
    (∃ t, ScrapeOutcome.waitTimeout "a page with No results found for q" =
        ScrapeOutcome.stats t ∧
      scrape_result_count (ScrapeOutcome.waitTimeout "a page with No results found for q") = none ∧
      findCount t.data = none) :=
  C3_amended_totality (ScrapeOutcome.waitTimeout "a page with No results found for q")

/-! ## Claim C4: correctness of the extraction regex embedding -/

theorem dropWhile_length_le {α : Type} (p : α → Bool) :
    ∀ l : List α, (l.dropWhile p).length ≤ l.length := by
  intro l
  induction l with
  | nil => simp
  | cons c rest ih =>
      rw [List.dropWhile_cons]
      by_cases hc : p c = true
      · rw [if_pos hc]
        exact le_trans ih (by simp)
      · rw [if_neg (by simpa using hc)]

theorem head_dropWhile_false {α : Type} (p : α → Bool) :
    ∀ (l : List α) (a : α) (cs : List α), l.dropWhile p = a :: cs → p a = false := by
  intro l
  induction l with
  | nil => intro a cs h; cases h
  | cons c rest ih =>
      intro a cs h
      rw [List.dropWhile_cons] at h
      by_cases hc : p c = true
      · rw [if_pos hc] at h
        exact ih a cs h
      · rw [if_neg (by simpa using hc)] at h
        obtain ⟨rfl, -⟩ := List.cons.inj h
        simpa using hc

theorem countChar_head_false (c : Char) (h : isCountChar c = true)
    (hl : Char.toLower c = ' ') : False := by
  rw [isCountChar, Bool.or_eq_true] at h
  rcases h with hd | hcomma
  · rw [Char.isDigit] at hd
    rw [Bool.and_eq_true, decide_eq_true_eq, decide_eq_true_eq] at hd
    obtain ⟨h48, h57⟩ := hd
    have h57x : c.val.toNat ≤ 57 := UInt32.toNat_le_of_le (by decide) h57
    have h48x : 48 ≤ c.val.toNat := UInt32.le_toNat_of_le (by decide) h48
    have htl : Char.toLower c = c := by
      rw [Char.toLower]
      rw [if_neg]
      intro hcond
      obtain ⟨h65, h90⟩ := hcond
      rw [Char.toNat] at h65 h90
      omega
    rw [htl] at hl
    subst hl
    exact absurd h48x (by decide)
  · have hcc : c = ',' := by simpa using hcomma
    subst hcc
    exact absurd hl (by decide)

theorem startsWithResultCI_head (l : List Char)
    (h : startsWithResultCI l = true) :
    ∃ c cs, l = c :: cs ∧ isCountChar c = false := by
  cases l with
  | nil => exact absurd h (by decide)
  | cons c cs =>
      refine ⟨c, cs, rfl, ?_⟩
      rw [startsWithResultCI, resultPattern] at h
      simp only [ciStartsWith, Bool.and_eq_true] at h
      obtain ⟨hbeq, -⟩ := h
      have hl : Char.toLower c = ' ' := by
        have h1 := eq_of_beq hbeq
        have h2 : Char.toLower ' ' = ' ' := by decide
        rw [h2] at h1
        exact h1.symm
      by_contra hcc
      exact countChar_head_false c (by simpa using hcc) hl

theorem takeWhile_append_of_all {α : Type} (p : α → Bool) :
    ∀ (x y : List α), x.all p = true →
      (x ++ y).takeWhile p = x ++ y.takeWhile p ∧
      (x ++ y).dropWhile p = y.dropWhile p := by
  intro x
  induction x with
  | nil => intro y _; simp
  | cons c xs ih =>
      intro y hall
      rw [List.all_cons, Bool.and_eq_true] at hall
      obtain ⟨hc, hall2⟩ := hall
      have hrec := ih y hall2
      constructor
      · rw [List.cons_append, List.takeWhile_cons, if_pos hc, hrec.1, List.cons_append]
      · rw [List.cons_append, List.dropWhile_cons, if_pos hc, hrec.2]

theorem getLast?_isSome_of_ne_nil {α : Type} :
    ∀ (l : List α), l ≠ [] → ∃ x, l.getLast? = some x := by
  intro l
  induction l with
  | nil => intro h; exact absurd rfl h
  | cons a t ih =>
      intro _
      cases t with
      | nil => exact ⟨a, rfl⟩
      | cons b t2 =>
          obtain ⟨x, hx⟩ := ih (by simp)
          exact ⟨x, by rw [List.getLast?_cons_cons]; exact hx⟩

theorem goodSplit_nil (pre r post : List Char) : ¬ goodSplit [] pre r post := by
  rintro ⟨heq, hne, -, -, -⟩
  have h2 : pre ++ r ++ post = [] := heq.symm
  simp only [List.append_eq_nil] at h2
  exact hne h2.1.2

theorem append_split_of_le {α : Type} (A : List α) :
    ∀ (B X Y : List α), A ++ X = B ++ Y → A.length ≤ B.length →
      ∃ C, B = A ++ C ∧ X = C ++ Y := by
  induction A with
  | nil => intro B X Y h _; exact ⟨B, rfl, by simpa using h⟩
  | cons a A2 ih =>
      intro B X Y h hle
      cases B with
      | nil => simp at hle
      | cons b B2 =>
          simp only [List.cons_append] at h
          obtain ⟨rfl, h2⟩ := List.cons.inj h
          obtain ⟨C, hC1, hC2⟩ := ih B2 X Y h2 (by simpa using hle)
          exact ⟨C, by rw [hC1, List.cons_append], hC2⟩

theorem goodSplit_pre_ne_nil {l pre r post : List Char}
    (hgs : goodSplit l pre r post)
    (hhead : ∀ c cs, l = c :: cs → isCountChar c = false) : pre ≠ [] := by
  obtain ⟨heq, hne, hall, hsw, hplast⟩ := hgs
  intro hpre
  subst hpre
  cases r with
  | nil => exact hne rfl
  | cons rc rcs =>
      have hl : l = rc :: (rcs ++ post) := by simpa using heq
      have h1 := hhead rc _ hl
      have h2 : isCountChar rc = true := List.all_eq_true.mp hall rc (by simp)
      rw [h1] at h2
      cases h2

theorem goodSplit_cons_noncount {c : Char} {rest pre2 r2 post2 : List Char}
    (hc : isCountChar c = false)
    (hgs : goodSplit rest pre2 r2 post2) :
    goodSplit (c :: rest) (c :: pre2) r2 post2 := by
  obtain ⟨heq, hne, hall, hsw, hplast⟩ := hgs
  refine ⟨by rw [heq]; simp [List.cons_append, List.append_assoc], hne, hall, hsw, ?_⟩
  intro x hx
  cases hp2 : pre2 with
  | nil =>
      subst hp2
      have : x = c := by
        have h1 : (([c] : List Char)).getLast? = some c := rfl
        rw [h1] at hx
        exact (Option.some.inj hx).symm
      subst this
      exact hc
  | cons a t =>
      apply hplast x
      rw [hp2]
      rw [hp2, List.getLast?_cons_cons] at hx
      exact hx

theorem goodSplit_cons_count {c : Char} {rest pre2 r2 post2 : List Char}
    (_hc : isCountChar c = true) (hpne : pre2 ≠ [])
    (hgs : goodSplit (rest.dropWhile isCountChar) pre2 r2 post2) :
    goodSplit (c :: rest) ((c :: rest.takeWhile isCountChar) ++ pre2) r2 post2 := by
  obtain ⟨heq, hne, hall, hsw, hplast⟩ := hgs
  refine ⟨?_, hne, hall, hsw, ?_⟩
  · conv_lhs => rw [show c :: rest =
      (c :: rest.takeWhile isCountChar) ++ rest.dropWhile isCountChar from by
        rw [List.cons_append, List.takeWhile_append_dropWhile]]
    rw [heq]
    simp [List.append_assoc]
  · intro x hx
    obtain ⟨y, hy⟩ := getLast?_isSome_of_ne_nil pre2 hpne
    rw [List.getLast?_append, hy] at hx
    have hxy : y = x := Option.some.inj (by simpa using hx)
    subst hxy
    exact hplast y hy

theorem goodSplit_step_count {c : Char} {rest pre1 r1 post1 : List Char}
    (hc : isCountChar c = true)
    (hns : startsWithResultCI (rest.dropWhile isCountChar) = false)
    (hgs : goodSplit (c :: rest) pre1 r1 post1) :
    ∃ pre2, pre1 = (c :: rest.takeWhile isCountChar) ++ pre2 ∧ pre2 ≠ [] ∧
      goodSplit (rest.dropWhile isCountChar) pre2 r1 post1 := by
  obtain ⟨heq, hne, hall, hsw, hplast⟩ := hgs
  have hldecomp : c :: rest =
      (c :: rest.takeWhile isCountChar) ++ rest.dropWhile isCountChar := by
    rw [List.cons_append, List.takeWhile_append_dropWhile]
  have hrunall : (c :: rest.takeWhile isCountChar).all isCountChar = true := by
    rw [List.all_cons, Bool.and_eq_true]
    exact ⟨hc, all_takeWhile_self isCountChar rest⟩
  have hE : (c :: rest.takeWhile isCountChar) ++ rest.dropWhile isCountChar =
      pre1 ++ (r1 ++ post1) := by
    rw [← hldecomp, heq, List.append_assoc]
  have hpre1ne : pre1 ≠ [] := by
    intro hnil
    subst hnil
    simp only [List.nil_append] at heq
    obtain ⟨pc, pcs, hpost, hpc⟩ := startsWithResultCI_head post1 hsw
    have hta := takeWhile_append_of_all isCountChar r1 post1 hall
    have hdp : post1.dropWhile isCountChar = post1 := by
      rw [hpost, List.dropWhile_cons, if_neg (by simp [hpc])]
    have h2 : (c :: rest).dropWhile isCountChar = post1 := by
      rw [heq, hta.2, hdp]
    have h3 : (c :: rest).dropWhile isCountChar = rest.dropWhile isCountChar := by
      rw [List.dropWhile_cons, if_pos hc]
    rw [h3] at h2
    rw [h2] at hns
    rw [hsw] at hns
    cases hns
  have hlenlt : (c :: rest.takeWhile isCountChar).length < pre1.length := by
    by_contra hle2
    push_neg at hle2
    obtain ⟨C, hC1, hC2⟩ := append_split_of_le pre1 (c :: rest.takeWhile isCountChar)
      (r1 ++ post1) (rest.dropWhile isCountChar) hE.symm hle2
    obtain ⟨x, hx⟩ := getLast?_isSome_of_ne_nil pre1 hpre1ne
    have hxmem : x ∈ pre1 := List.mem_of_mem_getLast? hx
    have hxrun : x ∈ c :: rest.takeWhile isCountChar := by
      rw [hC1]
      exact List.mem_append_left _ hxmem
    have hxc := List.all_eq_true.mp hrunall x hxrun
    have hxf := hplast x hx
    rw [hxc] at hxf
    cases hxf
  obtain ⟨C, hC1, hC2⟩ := append_split_of_le (c :: rest.takeWhile isCountChar) pre1
    (rest.dropWhile isCountChar) (r1 ++ post1) hE (le_of_lt hlenlt)
  have hCne : C ≠ [] := by
    intro h0
    subst h0
    rw [List.append_nil] at hC1
    rw [← hC1] at hlenlt
    exact lt_irrefl _ hlenlt
  refine ⟨C, hC1, hCne, ?_, hne, hall, hsw, ?_⟩
  · rw [hC2, List.append_assoc]
  · intro x hx
    apply hplast x
    rw [hC1, List.getLast?_append, hx]
    rfl

theorem goodSplit_step_noncount {c : Char} {rest pre1 r1 post1 : List Char}
    (hc : isCountChar c = false)
    (hgs : goodSplit (c :: rest) pre1 r1 post1) :
    ∃ pre2, pre1 = c :: pre2 ∧ goodSplit rest pre2 r1 post1 := by
  obtain ⟨heq, hne, hall, hsw, hplast⟩ := hgs
  cases pre1 with
  | nil =>
      exfalso
      simp only [List.nil_append] at heq
      cases r1 with
      | nil => exact hne rfl
      | cons rc rcs =>
          simp only [List.cons_append] at heq
          obtain ⟨hcr, -⟩ := List.cons.inj heq
          have h2 : isCountChar rc = true := List.all_eq_true.mp hall rc (by simp)
          rw [← hcr] at h2
          rw [hc] at h2
          cases h2
  | cons p ps =>
      simp only [List.cons_append] at heq
      obtain ⟨hcp, hrest⟩ := List.cons.inj heq
      subst hcp
      refine ⟨ps, rfl, hrest, hne, hall, hsw, ?_⟩
      intro x hx
      apply hplast x
      cases ps with
      | nil => cases hx
      | cons a t =>
          rw [List.getLast?_cons_cons]
          exact hx

theorem findCountFuel_correct :
    ∀ fuel l, l.length ≤ fuel →
      (∀ r, findCountFuel fuel l = some r →
        ∃ pre post, goodSplit l pre r post ∧
          ∀ pre1 r1 post1, goodSplit l pre1 r1 post1 → pre.length ≤ pre1.length) ∧
      (findCountFuel fuel l = none → ∀ pre r post, ¬ goodSplit l pre r post) := by
  intro fuel
  induction fuel with
  | zero =>
      intro l hl
      have hnil : l = [] := List.eq_nil_of_length_eq_zero (by omega)
      subst hnil
      constructor
      · intro r h
        exact Option.noConfusion h
      · intro _ pre r post
        exact goodSplit_nil pre r post
  | succ fuel ih =>
      intro l hl
      cases l with
      | nil =>
          constructor
          · intro r h
            exact Option.noConfusion h
          · intro _ pre r post
            exact goodSplit_nil pre r post
      | cons c rest =>
          have hstep : findCountFuel (fuel + 1) (c :: rest) =
              if isCountChar c then
                if startsWithResultCI (rest.dropWhile isCountChar) then
                  some (c :: rest.takeWhile isCountChar)
                else findCountFuel fuel (rest.dropWhile isCountChar)
              else findCountFuel fuel rest := rfl
          have hrl : rest.length ≤ fuel := by
            simp only [List.length_cons] at hl
            omega
          by_cases hc : isCountChar c = true
          · by_cases hsw : startsWithResultCI (rest.dropWhile isCountChar) = true
            · constructor
              · intro r h
                rw [hstep, if_pos hc, if_pos hsw] at h
                obtain rfl := (Option.some.inj h).symm
                refine ⟨[], rest.dropWhile isCountChar, ?_, ?_⟩
                · refine ⟨?_, by simp, ?_, hsw, by simp⟩
                  · rw [List.nil_append, List.cons_append,
                      List.takeWhile_append_dropWhile]
                  · rw [List.all_cons, Bool.and_eq_true]
                    exact ⟨hc, all_takeWhile_self isCountChar rest⟩
                · intro pre1 r1 post1 _
                  simp
              · intro h
                rw [hstep, if_pos hc, if_pos hsw] at h
                cases h
            · have hsw2 : startsWithResultCI (rest.dropWhile isCountChar) = false := by
                simpa using hsw
              have hlen : (rest.dropWhile isCountChar).length ≤ fuel :=
                le_trans (dropWhile_length_le isCountChar rest) hrl
              have IH := ih (rest.dropWhile isCountChar) hlen
              have hhead : ∀ a cs, rest.dropWhile isCountChar = a :: cs →
                  isCountChar a = false :=
                fun a cs hac => head_dropWhile_false isCountChar rest a cs hac
              constructor
              · intro r h
                rw [hstep, if_pos hc, if_neg hsw] at h
                obtain ⟨pre2, post2, hgs2, hmin2⟩ := IH.1 r h
                have hp2ne : pre2 ≠ [] := goodSplit_pre_ne_nil hgs2 hhead
                refine ⟨(c :: rest.takeWhile isCountChar) ++ pre2, post2,
                  goodSplit_cons_count hc hp2ne hgs2, ?_⟩
                intro pre1 r1 post1 hgs1
                obtain ⟨pre3, hpe, hp3ne, hgs3⟩ := goodSplit_step_count hc hsw2 hgs1
                have hm := hmin2 pre3 r1 post1 hgs3
                rw [hpe]
                simp only [List.length_append]
                omega
              · intro h
                rw [hstep, if_pos hc, if_neg hsw] at h
                intro pre1 r1 post1 hgs1
                obtain ⟨pre3, -, -, hgs3⟩ := goodSplit_step_count hc hsw2 hgs1
                exact IH.2 h pre3 r1 post1 hgs3
          · have hc2 : isCountChar c = false := by simpa using hc
            have IH := ih rest hrl
            constructor
            · intro r h
              rw [hstep, if_neg hc] at h
              obtain ⟨pre2, post2, hgs2, hmin2⟩ := IH.1 r h
              refine ⟨c :: pre2, post2, goodSplit_cons_noncount hc2 hgs2, ?_⟩
              intro pre1 r1 post1 hgs1
              obtain ⟨pre3, hpe, hgs3⟩ := goodSplit_step_noncount hc2 hgs1
              have hm := hmin2 pre3 r1 post1 hgs3
              rw [hpe]
              simp only [List.length_cons]
              omega
            · intro h
              rw [hstep, if_neg hc] at h
              intro pre1 r1 post1 hgs1
              obtain ⟨pre3, -, hgs3⟩ := goodSplit_step_noncount hc2 hgs1
              exact IH.2 h pre3 r1 post1 hgs3

/-- C4: for every result-stats text the scrape extracts the first (leftmost)
maximal token of digits and commas immediately preceding the word "result"
(case-insensitively) and returns it verbatim, digit grouping preserved;
"About 71,60,000 results (0.42 seconds)" yields "71,60,000". -/
theorem C4_first_token :
    scrape_result_count (ScrapeOutcome.stats "About 71,60,000 results (0.42 seconds)") =
      some "71,60,000" ∧
    (∀ l r, findCount l = some r →
      ∃ pre post, goodSplit l pre r post ∧
        ∀ pre1 r1 post1, goodSplit l pre1 r1 post1 → pre.length ≤ pre1.length) ∧
    (∀ l, findCount l = none → ∀ pre r post, ¬ goodSplit l pre r post) := by
  refine ⟨by decide, ?_, ?_⟩
  · intro l r h
    exact (findCountFuel_correct l.length l (le_refl _)).1 r h
  · intro l h
    exact (findCountFuel_correct l.length l (le_refl _)).2 h

/-- Witness for C4: the scenario text admits a good split whose captured
token is exactly "71,60,000". -/
theorem C4_witness :
    ∃ pre post, goodSplit ("About 71,60,000 results (0.42 seconds)".data) pre
      ("71,60,000".data) post := by
  obtain ⟨pre, post, hgs, -⟩ := C4_first_token.2.1
    ("About 71,60,000 results (0.42 seconds)".data) ("71,60,000".data) (by decide)
  exact ⟨pre, post, hgs⟩


end PdpChecker
